import Mathlib

/-!
Verification of the Tracepaper content ingestion, deduplication and semantic
retrieval engine (backend/app of the repository), as a shallow embedding.

Modelling conventions:
* UUIDs are modelled as natural numbers handed out by a per-store counter
  (`nextId`); SHA-256 is modelled as an abstract digest function
  `digest : String → String` passed to the ingestion operations (only its
  determinism matters to the claims).
* The relational store (SQLite via SQLModel) is modelled as insertion-ordered
  lists of rows; `select(...).first()` becomes `List.find?`, which returns the
  first row in insertion order.
* The sentence-transformer embedding model is modelled as an abstract function
  `encode : String → List Int` (a fixed vector of integer coordinates; only
  ordering of squared-L2 distances matters, never float rounding).
* The faiss `IndexFlatL2` is modelled as the list of stored vectors with exact
  squared-L2 search, `faissSearch`.
* Timestamps, `metadata_json`, `processed_at` and `original_path` play no role
  in any claim and are omitted from the row structures.
-/

namespace Tracepaper

/-- A `Source` row (models.py `Source`): provenance record. -/
structure Source where
  id : Nat
  type : String
  url : Option String
  title : Option String
deriving DecidableEq, Repr

/-- A `ContentItem` row (models.py `ContentItem`): one ingested unit of text,
belonging to exactly one `Source`. -/
structure ContentItem where
  id : Nat
  text_content : String
  content_hash : String
  source_id : Nat
deriving DecidableEq, Repr

/-- A `Summary` row (models.py `Summary`): cached derived summary for a
`ContentItem` (the `content_item_id` column is unique). -/
structure Summary where
  id : Nat
  summary_text : String
  model_used : Option String
  type : String
  content_item_id : Nat
deriving DecidableEq, Repr

/-- The relational store: rows in insertion order plus the id counter that
models UUID generation. -/
structure Store where
  sources : List Source
  contentItems : List ContentItem
  summaries : List Summary
  nextId : Nat
deriving DecidableEq, Repr

/-- The empty relational store. -/
def Store.empty : Store := ⟨[], [], [], 0⟩

/-! ## Vector index (vector_db.py) -/

/-- Python-dict insertion (`m[k] = v`): overwrites in place if the key exists,
otherwise appends at the end, preserving insertion order. -/
def dictInsert {α : Type} (m : List (Nat × α)) (k : Nat) (v : α) : List (Nat × α) :=
  match m with
  | [] => [(k, v)]
  | (k', v') :: rest => if k' = k then (k, v) :: rest else (k', v') :: dictInsert rest k v

/-- Python-dict lookup (`m.get(k)`). -/
def dictGet {α : Type} (m : List (Nat × α)) (k : Nat) : Option α :=
  (m.find? (fun p => p.1 == k)).map (·.2)

/-- Number of (distinct) keys of a dict, `len(m)` for maps built by
`dictInsert` and the key count of an arbitrary loaded map. -/
def keyCount {α : Type} (m : List (Nat × α)) : Nat :=
  (m.map Prod.fst).dedup.length

/-- In-memory state of `VectorDB`: the faiss `IndexFlatL2` contents (list of
stored vectors, slot = list position) and `internal_idx_to_content_id_map`
(slot number to `ContentItem` id). -/
structure VectorDBState where
  index : List (List Int)
  idMap : List (Nat × Nat)
deriving DecidableEq, Repr

/-- A fresh empty index with empty slot map. -/
def VectorDBState.empty : VectorDBState := ⟨[], []⟩

/-- Squared Euclidean distance between two vectors (faiss L2 metric; smaller
is more similar). -/
def sqDist (u v : List Int) : Int :=
  (List.zipWith (fun a b => (a - b) ^ 2) u v).sum

/-- Comparison of scored rows `(distance, slot)` by ascending distance. -/
def distLE (p q : Int × Int) : Prop := p.1 ≤ q.1

instance : DecidableRel distLE := fun p q => inferInstanceAs (Decidable (p.1 ≤ q.1))

instance : IsTotal (Int × Int) distLE := ⟨fun p q => le_total p.1 q.1⟩

instance : IsTrans (Int × Int) distLE := ⟨fun _ _ _ h h' => le_trans h h'⟩

/-- Models the external faiss `IndexFlatL2.search(qe, k)`: exact search
returning `k` rows `(distance, slot)`, nearest first in ascending distance,
padded with slot `-1` rows when fewer than `k` vectors are stored (faiss pads
missing rows with slot `-1`; the padding distance value is never read because
callers skip slot `-1`).  A nonpositive `k` yields no rows. -/
def faissSearch (index : List (List Int)) (qe : List Int) (k : Int) : List (Int × Int) :=
  let kn := k.toNat
  let scored := index.enum.map (fun p => (sqDist qe p.2, (p.1 : Int)))
  let ranked := (List.insertionSort distLE scored).take kn
  ranked ++ List.replicate (kn - ranked.length) ((0 : Int), (-1 : Int))

/-- `VectorDB.add_text_embedding` (vector_db.py lines 57-71): embeds the text,
takes the new slot number to be the current entry count, appends the vector,
records slot → id in the map, persists (`save_index`) and returns the slot. -/
def add_text_embedding (encode : String → List Int) (db : VectorDBState)
    (content_item_id : Nat) (text_content : String) : VectorDBState × Nat :=
  let embedding := encode text_content
  let internal_idx := db.index.length
  (⟨db.index ++ [embedding], dictInsert db.idMap internal_idx content_item_id⟩, internal_idx)

/-- Sequential `add_text_embedding` calls for a batch of `(id, text)` pairs,
returning the final state and the slot returned by each call in order. -/
def addAll (encode : String → List Int) (db : VectorDBState)
    (items : List (Nat × String)) : VectorDBState × List Nat :=
  match items with
  | [] => (db, [])
  | (cid, text) :: rest =>
    let step := add_text_embedding encode db cid text
    let restRun := addAll encode step.1 rest
    (restRun.1, step.2 :: restRun.2)

/-- `VectorDB.get_vector_count` (vector_db.py lines 101-102): `index.ntotal`. -/
def get_vector_count (db : VectorDBState) : Nat := db.index.length

/-- `VectorDB.search_similar` (vector_db.py lines 73-92): empty index returns
`[]`; otherwise embeds the query, runs the faiss search, and keeps, in ranked
order, every non-`-1` slot that resolves in the slot map, as
`(content_item_id, distance)`. -/
def search_similar (encode : String → List Int) (db : VectorDBState)
    (query_text : String) (k : Int) : List (Nat × Int) :=
  if db.index.length = 0 then []
  else
    let query_embedding := encode query_text
    (faissSearch db.index query_embedding k).filterMap
      (fun p =>
        if p.2 = -1 then none
        else (dictGet db.idMap p.2.toNat).map (fun cid => (cid, p.1)))

/-- The two on-disk artifacts of the index: the vector file
(`vector_index.faiss`) and the slot-map file (`vector_id_map.pkl`); `none`
means the file does not exist. -/
structure Disk where
  indexFile : Option (List (List Int))
  mapFile : Option (List (Nat × Nat))
deriving DecidableEq, Repr

/-- `VectorDB.load_or_create_index` (vector_db.py lines 43-55): if BOTH files
exist, load both (no consistency check of any kind is performed between them);
otherwise create a fresh empty index and empty map and immediately persist
both files (`save_index`), overwriting whatever single file may exist.
Returns the in-memory state and the resulting disk contents. -/
def load_or_create_index (disk : Disk) : VectorDBState × Disk :=
  match disk.indexFile, disk.mapFile with
  | some idx, some m => (⟨idx, m⟩, disk)
  | _, _ => (VectorDBState.empty, ⟨some [], some []⟩)

/-! ## Summarizer (summarizer.py) -/

/-- The name of the external summarization model (summarizer.py line 12). -/
def MODEL_NAME : String := "google/flan-t5-base"

/-- State of the external summarization pipeline: either unavailable (it is
`None` and the on-demand construction attempt fails too), or ready, in which
case running it on `(text, max_length, min_length)` either returns a summary
string or throws an exception with a message. -/
inductive PipelineState where
  | unavailable : PipelineState
  | ready : (String → Nat → Nat → Except String String) → PipelineState

/-- `summarizer.generate_summary` (summarizer.py lines 52-80): if the pipeline
is unavailable it returns the sentinel string
`"Error: Summarization service not available."`; if the pipeline throws an
exception `e` it returns `"Error generating summary: " ++ e`; otherwise it
returns the generated summary text. -/
def generate_summary (ps : PipelineState) (text : String)
    (max_length min_length : Nat) : String :=
  match ps with
  | .unavailable => "Error: Summarization service not available."
  | .ready run =>
    match run text max_length min_length with
    | .ok summary_text => summary_text
    | .error e => "Error generating summary: " ++ e

/-! ## Ingestion and retrieval endpoints (main.py)

The vector-index append performed at the end of each ingestion endpoint
(main.py lines 110-117 and 170-176) is wrapped in a bare try/except whose
failures are logged and swallowed; it mutates only the vector index, never the
relational rows, and is modelled separately by `add_text_embedding` above.
The ingestion functions below model the relational effects of the endpoints.
-/

/-- The shared tail of both ingestion endpoints (main.py lines 102-108 and
162-168): create the `ContentItem` under the resolved source and return it. -/
def finishIngest (store : Store) (src : Source) (text content_hash : String) :
    ContentItem × Store :=
  let item : ContentItem :=
    ⟨store.nextId, text, content_hash, src.id⟩
  (item, { store with contentItems := store.contentItems ++ [item],
                      nextId := store.nextId + 1 })

/-- `ingest_text` (main.py lines 71-119): hash the text; if a `ContentItem`
with that hash exists return it at once (no source is created or touched);
otherwise resolve the source: the lookup by url runs only under Python's
truthiness test `if source_url:` — the url must be present AND non-empty —
else (or when the lookup misses) a new source is always created; an existing
source is reused as-is, its title is never updated here.  Then create the
`ContentItem`. -/
def ingest_text (digest : String → String) (store : Store) (text : String)
    (source_type : String) (source_title source_url : Option String) :
    ContentItem × Store :=
  let content_hash := digest text
  match store.contentItems.find? (fun ci => ci.content_hash == content_hash) with
  | some existing => (existing, store)
  | none =>
    let found : Option Source :=
      match source_url with
      | some url =>
        if url = "" then none
        else store.sources.find? (fun s => s.url == some url)
      | none => none
    match found with
    | some db_source => finishIngest store db_source text content_hash
    | none =>
      let db_source : Source := ⟨store.nextId, source_type, source_url, source_title⟩
      let store' := { store with sources := store.sources ++ [db_source],
                                 nextId := store.nextId + 1 }
      finishIngest store' db_source text content_hash

/-- `ingest_webpage` (main.py lines 121-179): same hash short-circuit (both
arms of the duplicate branch, lines 135-142, return the existing item and
touch nothing); otherwise look the source up by url; if found and a non-empty
title differing from the stored one was supplied, update the stored title in
place; if not found create a new `"webpage"` source; then create the item. -/
def ingest_webpage (digest : String → String) (store : Store)
    (text source_url : String) (source_title : Option String) :
    ContentItem × Store :=
  let content_hash := digest text
  match store.contentItems.find? (fun ci => ci.content_hash == content_hash) with
  | some existing => (existing, store)
  | none =>
    match store.sources.find? (fun s => s.url == some source_url) with
    | none =>
      let db_source : Source := ⟨store.nextId, "webpage", some source_url, source_title⟩
      let store' := { store with sources := store.sources ++ [db_source],
                                 nextId := store.nextId + 1 }
      finishIngest store' db_source text content_hash
    | some db_source =>
      match source_title with
      | some t =>
        if t ≠ "" ∧ db_source.title ≠ some t then
          let updated := { db_source with title := some t }
          let newSources := store.sources.map (fun s => if s.id = db_source.id then updated else s)
          let store' := { store with sources := newSources }
          finishIngest store' updated text content_hash
        else finishIngest store db_source text content_hash
      | none => finishIngest store db_source text content_hash

/-- Outcome of the `/search` endpoint: HTTP 400, or an ordered result list. -/
inductive SearchResponse where
  | badRequest : String → SearchResponse
  | ok : List ContentItem → SearchResponse
deriving DecidableEq, Repr

/-- `search_content` (main.py lines 181-214): empty query is rejected with 400
before the index is consulted; otherwise the ranked `(id, distance)` list is
fetched from the index, the referenced rows are batch-fetched
(`where id in ids`), a dict id → row is built from the fetch, and the rows are
re-emitted in ranked order, silently (with a warning) dropping ranked ids
absent from the store. -/
def search_content (encode : String → List Int) (store : Store)
    (db : VectorDBState) (query : String) (k : Int) : SearchResponse :=
  if query = "" then .badRequest "Query cannot be empty"
  else
    let results := search_similar encode db query k
    if results = [] then .ok []
    else
      let content_item_ids := results.map Prod.fst
      let content_items_db :=
        store.contentItems.filter (fun ci => content_item_ids.contains ci.id)
      let id_to_item_map :=
        content_items_db.foldl (fun m item => dictInsert m item.id item) []
      .ok (content_item_ids.filterMap (fun item_id => dictGet id_to_item_map item_id))

/-- `list_content_items_with_summary` (main.py lines 220-230):
`select(ContentItem).offset(skip).limit(limit)` over the insertion-ordered
table (the loop that touches `ai_summary`/`source` only hydrates the rows for
serialization and does not affect which rows are returned or their order). -/
def list_content_items_with_summary (store : Store) (skip limit : Nat) :
    List ContentItem :=
  (store.contentItems.drop skip).take limit

/-- Python's `not text.strip()` test: the string has no non-whitespace
character (stated over the character list so it evaluates by kernel
reduction). -/
def isBlank (s : String) : Bool := s.toList.all Char.isWhitespace

/-- Python's `s.startswith(p)` (stated over the character lists so it
evaluates by kernel reduction). -/
def startsWithStr (p s : String) : Bool := p.toList.isPrefixOf s.toList

/-- Outcome of the `/content_items/{id}/summarize` endpoint: 404, 400 (blank
text), 500 (summary generation reported failed), or the returned summary. -/
inductive SummarizeResult where
  | notFound : SummarizeResult
  | emptyContent : SummarizeResult
  | summarizerFailed : String → SummarizeResult
  | ok : Summary → SummarizeResult
deriving DecidableEq, Repr

/-- `summarize_content_item` (main.py lines 248-290): 404 when the item does
not exist; an existing summary is returned as-is before the length parameters
are even read; blank (all-whitespace) text is a 400; otherwise
`generate_summary` is invoked and its result checked against the string
sentinel `"Error:"` — only strings with exactly that prefix become a 500, any
other return value is persisted as a new `Summary` row and returned.  The
third component counts the invocations of `generate_summary` made by the
call. -/
def summarize_content_item (ps : PipelineState) (store : Store) (item_id : Nat)
    (max_length min_length : Nat) : SummarizeResult × Store × Nat :=
  match store.contentItems.find? (fun ci => ci.id == item_id) with
  | none => (.notFound, store, 0)
  | some item =>
    match store.summaries.find? (fun s => s.content_item_id == item_id) with
    | some existing => (.ok existing, store, 0)
    | none =>
      if isBlank item.text_content then (.emptyContent, store, 0)
      else
        let summary_text := generate_summary ps item.text_content max_length min_length
        if startsWithStr "Error:" summary_text then
          (.summarizerFailed ("Failed to generate summary: " ++ summary_text), store, 1)
        else
          let new_summary : Summary :=
            ⟨store.nextId, summary_text, some MODEL_NAME,
             "ai_generated_item_summary", item_id⟩
          (.ok new_summary,
           { store with summaries := store.summaries ++ [new_summary],
                        nextId := store.nextId + 1 }, 1)

/-! ## Claim C3 and C10: index construction from disk -/

/-- C3 counterexample: a concrete pair of persisted files whose counts
disagree (one stored vector, zero map keys) for which construction does NOT
fail: it loads the mismatched pair verbatim and proceeds, leaving the disk
untouched. -/
theorem C3_mismatch_loads_without_error :
    load_or_create_index ⟨some [[1]], some []⟩ =
      (⟨[[1]], ([] : List (Nat × Nat))⟩, ⟨some [[1]], some []⟩) ∧
    (⟨[[1]], ([] : List (Nat × Nat))⟩ : VectorDBState).index.length = 1 ∧
    keyCount ([] : List (Nat × Nat)) = 0 := by
  refine ⟨rfl, rfl, rfl⟩

/-- C3 (amended): when both the vector file and the slot-map file exist,
construction loads them with no consistency check at all; even when the entry
count and the map's key count disagree it succeeds with the mismatched state
and leaves the disk unchanged (no `CorruptIndexError`, no repair). -/
theorem C3_load_no_count_check (idx : List (List Int)) (m : List (Nat × Nat))
    (hne : idx.length ≠ keyCount m) :
    load_or_create_index ⟨some idx, some m⟩ = (⟨idx, m⟩, ⟨some idx, some m⟩) := rfl

/-- C3 witness: the amended theorem applied at the mismatched concrete pair. -/
theorem C3_load_no_count_check_witness :
    ([[1]] : List (List Int)).length ≠ keyCount ([] : List (Nat × Nat)) ∧
    load_or_create_index ⟨some [[1]], some []⟩ =
      (⟨[[1]], ([] : List (Nat × Nat))⟩, ⟨some [[1]], some []⟩) :=
  ⟨by decide, C3_load_no_count_check [[1]] [] (by decide)⟩

/-- C10: when exactly one of the two persisted artifacts exists, construction
ignores the surviving file entirely: it builds a fresh empty index and empty
map, persists both (overwriting the survivor), and afterwards the entry count
is 0 — whatever embeddings the surviving file held are discarded. -/
theorem C10_single_survivor_overwritten (idx : List (List Int))
    (m : List (Nat × Nat)) :
    load_or_create_index ⟨some idx, none⟩ =
      (VectorDBState.empty, ⟨some [], some []⟩) ∧
    load_or_create_index ⟨none, some m⟩ =
      (VectorDBState.empty, ⟨some [], some []⟩) ∧
    get_vector_count VectorDBState.empty = 0 :=
  ⟨rfl, rfl, rfl⟩

/-! ## Helper lemmas -/

/-- `find?` over an appended list when nothing on the left matches. -/
theorem find?_append_of_none {α : Type} (p : α → Bool) (l l₂ : List α)
    (h : l.find? p = none) : (l ++ l₂).find? p = l₂.find? p := by
  induction l with
  | nil => simp
  | cons x xs ih =>
    by_cases hx : p x = true
    · simp [List.find?_cons_of_pos _ hx] at h
    · simp only [List.cons_append, List.find?_cons_of_neg _ hx] at h ⊢
      exact ih h

/-! ## Claim C2: summarizer internal errors -/

/-- C2: the code is wrong on the "summarizer throws" half of the claim.  With
a ready pipeline that throws an exception `"boom"` on a `ContentItem` with
non-blank text and no existing summary, `generate_summary` returns the
sentinel `"Error generating summary: boom"`, which does NOT start with
`"Error:"` (space versus colon), so the endpoint does not fail: it persists
the error string as a new `Summary` row and returns it as a success. -/
theorem C2_thrown_error_persisted_as_summary :
    summarize_content_item (.ready (fun _ _ _ => .error "boom"))
        ⟨[⟨0, "test", some "http://t", some "T"⟩],
         [⟨1, "hello world", "h0", 0⟩], [], 2⟩ 1 150 30 =
      (.ok ⟨2, "Error generating summary: boom", some MODEL_NAME,
            "ai_generated_item_summary", 1⟩,
       ⟨[⟨0, "test", some "http://t", some "T"⟩],
        [⟨1, "hello world", "h0", 0⟩],
        [⟨2, "Error generating summary: boom", some MODEL_NAME,
          "ai_generated_item_summary", 1⟩], 3⟩, 1) ∧
    startsWithStr "Error:" "Error generating summary: boom" = false := by
  exact ⟨by decide, by decide⟩

/-! ## Claim C7: summary caching -/

/-- C7: when the item exists and already has a `Summary`, `summarize` returns
that summary with the store unchanged and zero summarizer invocations, for
arbitrary length parameters; and for two sequential calls that both return a
summary, the two returned summaries have the same id and the summarizer is
invoked at most once in total. -/
theorem C7_existing_summary_cached (ps : PipelineState) (store : Store)
    (item_id ml₁ mn₁ ml₂ mn₂ : Nat) :
    (∀ item s,
       store.contentItems.find? (fun ci => ci.id == item_id) = some item →
       store.summaries.find? (fun x => x.content_item_id == item_id) = some s →
       summarize_content_item ps store item_id ml₁ mn₁ = (.ok s, store, 0)) ∧
    (∀ s₁ s₂,
       (summarize_content_item ps store item_id ml₁ mn₁).1 = .ok s₁ →
       (summarize_content_item ps
          (summarize_content_item ps store item_id ml₁ mn₁).2.1 item_id ml₂ mn₂).1 = .ok s₂ →
       s₂.id = s₁.id ∧
       (summarize_content_item ps store item_id ml₁ mn₁).2.2 +
         (summarize_content_item ps
            (summarize_content_item ps store item_id ml₁ mn₁).2.1 item_id ml₂ mn₂).2.2 ≤ 1) := by
  constructor
  · intro item s hi hs
    simp [summarize_content_item, hi, hs]
  · intro s₁ s₂ h₁ h₂
    cases hi : store.contentItems.find? (fun ci => ci.id == item_id) with
    | none => simp [summarize_content_item, hi] at h₁
    | some item =>
      cases hs : store.summaries.find? (fun x => x.content_item_id == item_id) with
      | some ex =>
        have hr : summarize_content_item ps store item_id ml₁ mn₁ = (.ok ex, store, 0) := by
          simp [summarize_content_item, hi, hs]
        rw [hr] at h₁ h₂ ⊢
        simp only [hr] at h₂
        have hr₂ : summarize_content_item ps store item_id ml₂ mn₂ = (.ok ex, store, 0) := by
          simp [summarize_content_item, hi, hs]
        rw [hr₂] at h₂
        simp_all
      | none =>
        by_cases htr : isBlank item.text_content = true
        · simp [summarize_content_item, hi, hs, htr] at h₁
        · by_cases herr :
            startsWithStr "Error:" (generate_summary ps item.text_content ml₁ mn₁) = true
          · simp [summarize_content_item, hi, hs, htr, herr] at h₁
          · set st := generate_summary ps item.text_content ml₁ mn₁ with hst
            set new : Summary :=
              ⟨store.nextId, st, some MODEL_NAME, "ai_generated_item_summary", item_id⟩
              with hnew
            have hr : summarize_content_item ps store item_id ml₁ mn₁ =
                (.ok new,
                 { store with summaries := store.summaries ++ [new],
                              nextId := store.nextId + 1 }, 1) := by
              simp [summarize_content_item, hi, hs, htr, herr, hnew]
            rw [hr] at h₁ h₂ ⊢
            have hfind₂ : (store.summaries ++ [new]).find?
                (fun x => x.content_item_id == item_id) = some new := by
              rw [find?_append_of_none _ _ _ hs]
              simp [hnew]
            have hr₂ : summarize_content_item ps
                { store with summaries := store.summaries ++ [new],
                             nextId := store.nextId + 1 } item_id ml₂ mn₂ =
                (.ok new,
                 { store with summaries := store.summaries ++ [new],
                              nextId := store.nextId + 1 }, 0) := by
              simp [summarize_content_item, hi, hfind₂]
            rw [hr₂] at h₂
            simp_all

/-- C7 witness: a concrete store in which item 1 already has summary id 5;
both conjuncts of the theorem evaluated there. -/
theorem C7_witness :
    ((⟨[], [⟨1, "txt", "h", 0⟩], [⟨5, "sum", none, "manual", 1⟩], 6⟩ : Store).contentItems.find?
        (fun ci => ci.id == 1) = some ⟨1, "txt", "h", 0⟩) ∧
    ((⟨[], [⟨1, "txt", "h", 0⟩], [⟨5, "sum", none, "manual", 1⟩], 6⟩ : Store).summaries.find?
        (fun x => x.content_item_id == 1) = some ⟨5, "sum", none, "manual", 1⟩) ∧
    summarize_content_item .unavailable
        ⟨[], [⟨1, "txt", "h", 0⟩], [⟨5, "sum", none, "manual", 1⟩], 6⟩ 1 150 30 =
      (.ok ⟨5, "sum", none, "manual", 1⟩,
       ⟨[], [⟨1, "txt", "h", 0⟩], [⟨5, "sum", none, "manual", 1⟩], 6⟩, 0) :=
  ⟨by decide, by decide,
    (C7_existing_summary_cached .unavailable
        ⟨[], [⟨1, "txt", "h", 0⟩], [⟨5, "sum", none, "manual", 1⟩], 6⟩ 1 150 30 99 98).1
      ⟨1, "txt", "h", 0⟩ ⟨5, "sum", none, "manual", 1⟩ (by decide) (by decide)⟩

/-! ## Claim C4: append-only slot assignment -/

/-- Invariant of every reachable vector-db state: the slot map's keys are
exactly `0 .. entryCount - 1`, in insertion order. -/
def GoodDB (db : VectorDBState) : Prop :=
  db.idMap.map Prod.fst = List.range db.index.length

/-- Inserting a fresh key into a dict appends it at the end. -/
theorem dictInsert_of_fresh {α : Type} (m : List (Nat × α)) (k : Nat) (v : α)
    (h : ¬ k ∈ m.map Prod.fst) : dictInsert m k v = m ++ [(k, v)] := by
  induction m with
  | nil => rfl
  | cons p rest ih =>
    obtain ⟨k', v'⟩ := p
    simp only [List.map_cons, List.mem_cons] at h
    push_neg at h
    simp only [dictInsert, List.cons_append]
    rw [if_neg (fun hk => h.1 hk.symm)]
    rw [ih h.2]

/-- One `add_text_embedding` call: the returned slot is the entry count at
call time, the entry count grows by one, and the key invariant persists. -/
theorem add_text_embedding_good (encode : String → List Int) (db : VectorDBState)
    (cid : Nat) (text : String) (h : GoodDB db) :
    (add_text_embedding encode db cid text).2 = db.index.length ∧
    (add_text_embedding encode db cid text).1.index.length = db.index.length + 1 ∧
    GoodDB (add_text_embedding encode db cid text).1 := by
  have h' : db.idMap.map Prod.fst = List.range db.index.length := h
  refine ⟨rfl, by simp [add_text_embedding], ?_⟩
  unfold GoodDB add_text_embedding
  simp only
  rw [dictInsert_of_fresh _ _ _ (by rw [h']; simp [List.mem_range])]
  simp [List.map_append, h', List.range_succ]

/-- `addAll` from any good state: the returned slots are the consecutive
numbers starting at the initial entry count, the final entry count is the
initial one plus the batch size, and the key invariant persists. -/
theorem addAll_spec (encode : String → List Int) (items : List (Nat × String)) :
    ∀ db : VectorDBState, GoodDB db →
    (addAll encode db items).2 = (List.range items.length).map (· + db.index.length) ∧
    (addAll encode db items).1.index.length = db.index.length + items.length ∧
    GoodDB (addAll encode db items).1 := by
  induction items with
  | nil =>
    intro db h
    simp [addAll, h]
  | cons it rest ih =>
    intro db h
    obtain ⟨cid, text⟩ := it
    obtain ⟨hslot, hlen, hgood⟩ := add_text_embedding_good encode db cid text h
    obtain ⟨ih1, ih2, ih3⟩ := ih _ hgood
    refine ⟨?_, ?_, ih3⟩
    · simp only [addAll, ih1, hslot, hlen, List.length_cons]
      rw [List.range_succ_eq_map]
      simp only [List.map_cons, List.map_map, Nat.zero_add]
      refine congrArg _ (List.map_congr_left ?_)
      intro a _
      simp only [Function.comp_apply]
      omega
    · simp only [addAll, ih2, hlen, List.length_cons]
      omega

/-- C4: starting from the empty index, after `addAll` over N items: the list
of returned slots is exactly `0 .. N-1` in strict append order (so they are
unique and never reused), `count() = N`, each call returned the entry count
at the time of the call, and at every persisted point (after each prefix of
the adds, `save_index` being called at the end of every add) the entry count
equals the number of keys of the slot map. -/
theorem C4_append_only_slots (encode : String → List Int) (items : List (Nat × String)) :
    (addAll encode VectorDBState.empty items).2 = List.range items.length ∧
    get_vector_count (addAll encode VectorDBState.empty items).1 = items.length ∧
    (∀ i, i < items.length →
       (addAll encode VectorDBState.empty items).2[i]? =
         some (get_vector_count (addAll encode VectorDBState.empty (items.take i)).1)) ∧
    (∀ i, keyCount ((addAll encode VectorDBState.empty (items.take i)).1.idMap) =
       get_vector_count (addAll encode VectorDBState.empty (items.take i)).1) := by
  have hempty : GoodDB VectorDBState.empty := by simp [GoodDB, VectorDBState.empty]
  obtain ⟨h1, h2, h3⟩ := addAll_spec encode items VectorDBState.empty hempty
  have hslots : (addAll encode VectorDBState.empty items).2 = List.range items.length := by
    simpa [VectorDBState.empty] using h1
  refine ⟨hslots, by simpa [get_vector_count, VectorDBState.empty] using h2, ?_, ?_⟩
  · intro i hi
    obtain ⟨t1, t2, t3⟩ := addAll_spec encode (items.take i) VectorDBState.empty hempty
    rw [hslots, List.getElem?_range hi, get_vector_count, t2]
    simp [VectorDBState.empty, List.length_take, Nat.min_eq_left (le_of_lt hi)]
  · intro i
    obtain ⟨t1, t2, t3⟩ := addAll_spec encode (items.take i) VectorDBState.empty hempty
    rw [GoodDB] at t3
    rw [keyCount, get_vector_count, t3,
      List.Nodup.dedup (List.nodup_range _), List.length_range]

/-- C4 witness: two items added through a concrete embedding function. -/
theorem C4_witness :
    (addAll (fun s => [(s.length : Int)]) VectorDBState.empty [(10, "a"), (11, "bb")]).2 =
      List.range 2 ∧
    (1 < 2) ∧
    (addAll (fun s => [(s.length : Int)]) VectorDBState.empty [(10, "a"), (11, "bb")]).2[1]? =
      some (get_vector_count (addAll (fun s => [(s.length : Int)]) VectorDBState.empty
        ([(10, "a"), (11, "bb")].take 1)).1) ∧
    keyCount ((addAll (fun s => [(s.length : Int)]) VectorDBState.empty
        ([(10, "a"), (11, "bb")].take 2)).1.idMap) =
      get_vector_count (addAll (fun s => [(s.length : Int)]) VectorDBState.empty
        ([(10, "a"), (11, "bb")].take 2)).1 := by
  have h := C4_append_only_slots (fun s => [(s.length : Int)]) [(10, "a"), (11, "bb")]
  exact ⟨h.1, by decide, h.2.2.1 1 (by decide), h.2.2.2 2⟩

/-! ## Claim C8: search never fails on empty input -/

/-- `filterMap` of a constantly-dropped row over a `replicate` is empty. -/
theorem filterMap_replicate_none {α β : Type} (g : α → Option β) (x : α)
    (hx : g x = none) (n : Nat) : (List.replicate n x).filterMap g = [] := by
  induction n with
  | zero => rfl
  | succ m ih => simp [List.replicate_succ, List.filterMap_cons, hx, ih]

/-- Any row kept by the `search_similar` post-processing carries the distance
of the faiss row it came from. -/
theorem searchRow_snd {db : VectorDBState} {p : Int × Int} {x : Nat × Int}
    (hx : x ∈ (if p.2 = -1 then none
               else (dictGet db.idMap p.2.toNat).map (fun cid => (cid, p.1)))) :
    x.2 = p.1 := by
  by_cases h : p.2 = -1
  · rw [if_pos h] at hx
    simp at hx
  · rw [if_neg h] at hx
    cases hdict : dictGet db.idMap p.2.toNat with
    | none => rw [hdict] at hx; simp at hx
    | some cid =>
      rw [hdict] at hx
      simp at hx
      rw [← hx]

/-- C8: `search_similar` returns an empty sequence, not an error, on an empty
index for every query and `k`, and likewise for every `k ≤ 0`; whatever it
returns is in ascending-distance order and has at most `max k 0` entries. -/
theorem C8_search_similar_total (encode : String → List Int) (db : VectorDBState)
    (q : String) (k : Int) :
    (db.index = [] → search_similar encode db q k = []) ∧
    (k ≤ 0 → search_similar encode db q k = []) ∧
    List.Sorted (· ≤ ·) ((search_similar encode db q k).map Prod.snd) ∧
    (search_similar encode db q k).length ≤ k.toNat := by
  by_cases hempty : db.index.length = 0
  · refine ⟨fun _ => by simp [search_similar, hempty], fun _ => by simp [search_similar, hempty],
      ?_, ?_⟩ <;> simp [search_similar, hempty, List.Sorted]
  · have hrw : search_similar encode db q k =
        (faissSearch db.index (encode q) k).filterMap
          (fun p => if p.2 = -1 then none
                    else (dictGet db.idMap p.2.toNat).map (fun cid => (cid, p.1))) := by
      simp [search_similar, hempty]
    have hpadrow : (fun p : Int × Int =>
        if p.2 = -1 then none
        else (dictGet db.idMap p.2.toNat).map (fun cid => (cid, p.1)))
          ((0 : Int), (-1 : Int)) = none := by simp
    have hsplit : search_similar encode db q k =
        ((List.insertionSort distLE
            (db.index.enum.map (fun p => (sqDist (encode q) p.2, (p.1 : Int))))).take
          k.toNat).filterMap
          (fun p => if p.2 = -1 then none
                    else (dictGet db.idMap p.2.toNat).map (fun cid => (cid, p.1))) := by
      rw [hrw]
      unfold faissSearch
      rw [List.filterMap_append,
        filterMap_replicate_none
          (fun p : Int × Int => if p.2 = -1 then none
            else (dictGet db.idMap p.2.toNat).map (fun cid => (cid, p.1)))
          ((0 : Int), (-1 : Int)) hpadrow, List.append_nil]
    refine ⟨fun h => absurd (by rw [h]; rfl) hempty, ?_, ?_, ?_⟩
    · intro hk
      rw [hsplit, Int.toNat_of_nonpos hk]
      simp
    · rw [hsplit]
      have hsorted : List.Sorted distLE
          (List.insertionSort distLE
            (db.index.enum.map (fun p => (sqDist (encode q) p.2, (p.1 : Int))))) :=
        List.sorted_insertionSort distLE _
      have htake : List.Sorted distLE
          ((List.insertionSort distLE
            (db.index.enum.map (fun p => (sqDist (encode q) p.2, (p.1 : Int))))).take
            k.toNat) :=
        hsorted.sublist (List.take_sublist _ _)
      rw [List.Sorted, List.pairwise_map]
      refine List.Pairwise.filterMap _ ?_ htake
      intro a b hab x hx y hy
      rw [searchRow_snd hx, searchRow_snd hy]
      exact hab
    · rw [hsplit]
      calc (((List.insertionSort distLE
              (db.index.enum.map (fun p => (sqDist (encode q) p.2, (p.1 : Int))))).take
            k.toNat).filterMap _).length
          ≤ ((List.insertionSort distLE
              (db.index.enum.map (fun p => (sqDist (encode q) p.2, (p.1 : Int))))).take
            k.toNat).length := List.length_filterMap_le _ _
        _ ≤ k.toNat := by rw [List.length_take]; exact min_le_left _ _

/-- C8 witness: the first conjunct applied to the empty index. -/
theorem C8_witness :
    search_similar (fun s => [(s.length : Int)]) VectorDBState.empty "anything" 5 = [] :=
  (C8_search_similar_total (fun s => [(s.length : Int)]) VectorDBState.empty
    "anything" 5).1 rfl

/-! ## Claim C1: ingestion idempotence on content -/

/-- Shape of `ingest_text` when no item with the hash exists: some source id
and sources list come out of source resolution, but the new item is always
the digest-hashed text appended to the unchanged item list, with summaries
untouched. -/
theorem ingest_text_of_hash_new (digest : String → String) (store : Store)
    (t ty : String) (ti u : Option String)
    (hf : store.contentItems.find? (fun ci => ci.content_hash == digest t) = none) :
    ∃ n sid srcs,
      ingest_text digest store t ty ti u =
        (⟨n, t, digest t, sid⟩,
         ⟨srcs, store.contentItems ++ [⟨n, t, digest t, sid⟩], store.summaries, n + 1⟩) := by
  simp only [ingest_text, hf]
  cases u with
  | none =>
    exact ⟨store.nextId + 1, store.nextId, _, rfl⟩
  | some url =>
    by_cases hu : url = ""
    · simp only [if_pos hu]
      exact ⟨store.nextId + 1, store.nextId, _, rfl⟩
    · simp only [if_neg hu]
      cases hsrc : store.sources.find? (fun s => s.url == some url) with
      | some db_source =>
        simp only [hsrc]
        exact ⟨store.nextId, db_source.id, store.sources, rfl⟩
      | none =>
        simp only [hsrc]
        exact ⟨store.nextId + 1, store.nextId, _, rfl⟩

/-- C1: ingestion is idempotent on content.  Starting from any store with at
most one item carrying the hash of `t` (the dedup invariant), a second
`ingest_text` of the identical `t` — with arbitrary, possibly different,
source metadata — returns exactly the first call's result: the same
`ContentItem` (hence the same id) and the identical store, so no `Source` is
created or mutated and the duplicate's metadata is discarded; moreover
exactly one `ContentItem` with `content_hash = digest t` exists afterward. -/
theorem C1_ingest_text_idempotent (digest : String → String) (store : Store)
    (t ty₁ ty₂ : String) (ti₁ u₁ ti₂ u₂ : Option String)
    (hcount : store.contentItems.countP (fun ci => ci.content_hash == digest t) ≤ 1) :
    ingest_text digest (ingest_text digest store t ty₁ ti₁ u₁).2 t ty₂ ti₂ u₂ =
      ingest_text digest store t ty₁ ti₁ u₁ ∧
    ((ingest_text digest (ingest_text digest store t ty₁ ti₁ u₁).2 t ty₂ ti₂ u₂).2).contentItems.countP
        (fun ci => ci.content_hash == digest t) = 1 := by
  cases hf : store.contentItems.find? (fun ci => ci.content_hash == digest t) with
  | some e =>
    have h₁ : ingest_text digest store t ty₁ ti₁ u₁ = (e, store) := by
      simp [ingest_text, hf]
    have h₂ : ingest_text digest store t ty₂ ti₂ u₂ = (e, store) := by
      simp [ingest_text, hf]
    have hpe := List.find?_some hf
    have hpos : 0 < store.contentItems.countP (fun ci => ci.content_hash == digest t) :=
      List.countP_pos_iff.mpr ⟨e, List.mem_of_find?_eq_some hf, hpe⟩
    rw [h₁]
    exact ⟨h₂, by rw [h₂]; dsimp only; omega⟩
  | none =>
    obtain ⟨n, sid, srcs, h₁⟩ := ingest_text_of_hash_new digest store t ty₁ ti₁ u₁ hf
    have hzero : store.contentItems.countP (fun ci => ci.content_hash == digest t) = 0 :=
      List.countP_eq_zero.mpr (by
        intro a ha
        exact List.find?_eq_none.mp hf a ha)
    have hfind₂ : (store.contentItems ++ [(⟨n, t, digest t, sid⟩ : ContentItem)]).find?
        (fun ci => ci.content_hash == digest t) = some ⟨n, t, digest t, sid⟩ := by
      rw [find?_append_of_none _ _ _ hf]
      simp
    have h₂ : ingest_text digest
        (⟨srcs, store.contentItems ++ [⟨n, t, digest t, sid⟩], store.summaries, n + 1⟩ : Store)
        t ty₂ ti₂ u₂ =
        (⟨n, t, digest t, sid⟩,
         ⟨srcs, store.contentItems ++ [⟨n, t, digest t, sid⟩], store.summaries, n + 1⟩) := by
      simp [ingest_text, hfind₂]
    rw [h₁]
    refine ⟨h₂, ?_⟩
    rw [h₂]
    simp [List.countP_append, hzero, List.countP_cons]

/-- C1 witness: the identity digest, the empty store and the text `"fox"`
ingested twice with different source metadata. -/
theorem C1_witness :
    (Store.empty.contentItems.countP (fun ci => ci.content_hash == "fox") ≤ 1) ∧
    ingest_text id (ingest_text id Store.empty "fox" "manual_text" (some "A") (some "http://a")).2
        "fox" "clipboard" (some "B") (some "http://b") =
      ingest_text id Store.empty "fox" "manual_text" (some "A") (some "http://a") ∧
    ((ingest_text id (ingest_text id Store.empty "fox" "manual_text" (some "A") (some "http://a")).2
        "fox" "clipboard" (some "B") (some "http://b")).2).contentItems.countP
        (fun ci => ci.content_hash == "fox") = 1 := by
  have h := C1_ingest_text_idempotent id Store.empty "fox" "manual_text" "clipboard"
    (some "A") (some "http://a") (some "B") (some "http://b") (by decide)
  exact ⟨by decide, h.1, h.2⟩

/-! ## Claim C5: retrieval merge ordering -/

/-- `dictGet` over a cons cell. -/
theorem dictGet_cons {α : Type} (k' : Nat) (v' : α) (rest : List (Nat × α)) (i : Nat) :
    dictGet ((k', v') :: rest) i = if k' = i then some v' else dictGet rest i := by
  by_cases h : k' = i
  · simp [dictGet, List.find?, beq_iff_eq.mpr h, h]
  · simp [dictGet, List.find?, beq_eq_false_iff_ne.mpr h, h]

/-- `dictGet` after `dictInsert`. -/
theorem dictGet_dictInsert {α : Type} (m : List (Nat × α)) (k i : Nat) (v : α) :
    dictGet (dictInsert m k v) i = if i = k then some v else dictGet m i := by
  induction m with
  | nil =>
    simp only [dictInsert, dictGet_cons]
    by_cases h : k = i
    · simp [h]
    · rw [if_neg h, if_neg (fun he => h he.symm)]
  | cons p rest ih =>
    obtain ⟨k', v'⟩ := p
    by_cases hk : k' = k
    · subst hk
      have hdi : dictInsert ((k', v') :: rest) k' v = (k', v) :: rest := by
        simp [dictInsert]
      rw [hdi, dictGet_cons, dictGet_cons]
      by_cases h : k' = i
      · simp only [if_pos h, if_pos h.symm]
      · simp only [if_neg h, if_neg (fun he : i = k' => h he.symm)]
    · have hdi : dictInsert ((k', v') :: rest) k v = (k', v') :: dictInsert rest k v := by
        simp [dictInsert, hk]
      rw [hdi, dictGet_cons, dictGet_cons, ih]
      by_cases h1 : k' = i
      · by_cases h2 : i = k
        · exact absurd (h1.trans h2) hk
        · simp only [if_pos h1, if_neg h2]
      · by_cases h2 : i = k
        · simp only [if_neg h1, if_pos h2]
        · simp only [if_neg h1, if_neg h2]

/-- Looking an id up in the dict built by the `/search` handler's
comprehension equals first-match lookup in the build order, provided the ids
are distinct (they are: `id` is the primary key). -/
theorem dictGet_build (items : List ContentItem) (m₀ : List (Nat × ContentItem))
    (i : Nat) (h : (items.map (fun ci => ci.id)).Nodup) :
    dictGet (items.foldl (fun m item => dictInsert m item.id item) m₀) i =
      match items.find? (fun it => it.id == i) with
      | some it => some it
      | none => dictGet m₀ i := by
  induction items generalizing m₀ with
  | nil => simp
  | cons it rest ih =>
    simp only [List.map_cons, List.nodup_cons] at h
    obtain ⟨hnotin, hrest⟩ := h
    simp only [List.foldl_cons]
    rw [ih _ hrest]
    by_cases hit : it.id = i
    · subst hit
      have hfr : rest.find? (fun x => x.id == it.id) = none := by
        apply List.find?_eq_none.mpr
        intro a ha hpa
        exact hnotin (List.mem_map.mpr ⟨a, ha, by simpa using hpa⟩)
      rw [hfr]
      simp [List.find?, dictGet_dictInsert]
    · have hpred : (it.id == i) = false := beq_eq_false_iff_ne.mpr hit
      simp only [List.find?, hpred]
      cases hfr : rest.find? (fun x => x.id == i) with
      | some a => rfl
      | none =>
        show dictGet (dictInsert m₀ it.id it) i = dictGet m₀ i
        rw [dictGet_dictInsert, if_neg (fun he => hit he.symm)]

/-- First-match lookup by id commutes with the batch-fetch filter when the id
is one of the fetched ids. -/
theorem find?_filter_contains (l : List ContentItem) (ids : List Nat) (i : Nat)
    (hi : ids.contains i = true) :
    (l.filter (fun ci => ids.contains ci.id)).find? (fun ci => ci.id == i) =
      l.find? (fun ci => ci.id == i) := by
  induction l with
  | nil => rfl
  | cons x xs ih =>
    by_cases hx : x.id = i
    · have hkeep : ids.contains x.id = true := by rw [hx]; exact hi
      have hb : (x.id == i) = true := beq_iff_eq.mpr hx
      rw [List.filter_cons, if_pos hkeep]
      simp only [List.find?_cons, hb]
    · have hb : (x.id == i) = false := beq_eq_false_iff_ne.mpr hx
      rw [List.filter_cons]
      by_cases hkeep : ids.contains x.id = true
      · rw [if_pos hkeep]
        simp only [List.find?_cons, hb]
        exact ih
      · rw [if_neg hkeep, ih]
        simp only [List.find?_cons, hb]

/-- C5: the `/search` endpoint rejects the empty query with 400 without
consulting the index (the response is the same for every index state); and
for every non-empty query the response is exactly the ranked id list of the
index resolved against the store in ranked order, ids absent from the store
being dropped — assuming only that stored ids are distinct (primary key). -/
theorem C5_search_ranked_merge (encode : String → List Int) (store : Store)
    (db : VectorDBState) (q : String) (k : Int)
    (hnodup : (store.contentItems.map (fun ci => ci.id)).Nodup) :
    (∀ store' db' k', search_content encode store' db' "" k' =
        .badRequest "Query cannot be empty") ∧
    (q ≠ "" →
      search_content encode store db q k =
        .ok (((search_similar encode db q k).map Prod.fst).filterMap
              (fun i => store.contentItems.find? (fun ci => ci.id == i)))) := by
  constructor
  · intro store' db' k'
    rfl
  · intro hq
    unfold search_content
    rw [if_neg hq]
    by_cases hres : search_similar encode db q k = []
    · rw [hres]
      simp
    · rw [if_neg hres]
      refine congrArg _ ?_
      apply List.filterMap_congr
      intro i hi
      have hcontains : ((search_similar encode db q k).map Prod.fst).contains i = true :=
        List.elem_eq_true_of_mem hi
      have hfetchNodup :
          ((store.contentItems.filter
              (fun ci => ((search_similar encode db q k).map Prod.fst).contains ci.id)).map
            (fun ci => ci.id)).Nodup :=
        hnodup.sublist ((List.filter_sublist _).map _)
      rw [dictGet_build _ _ _ hfetchNodup,
        find?_filter_contains _ _ _ hcontains]
      cases hfind : store.contentItems.find? (fun ci => ci.id == i) with
      | some a => simp
      | none => simp [dictGet]

/-- C5 witness: a concrete two-item store and two-vector index; the ranked
merge evaluated through the theorem. -/
theorem C5_witness :
    ((⟨[], [⟨1, "aaa", "h1", 0⟩, ⟨2, "bb", "h2", 0⟩], [], 3⟩ : Store).contentItems.map
        (fun ci => ci.id)).Nodup ∧
    ("x" ≠ "") ∧
    search_content (fun s => [(s.length : Int)])
        ⟨[], [⟨1, "aaa", "h1", 0⟩, ⟨2, "bb", "h2", 0⟩], [], 3⟩
        ⟨[[3], [1]], [(0, 1), (1, 2)]⟩ "x" 5 =
      .ok (((search_similar (fun s => [(s.length : Int)])
              ⟨[[3], [1]], [(0, 1), (1, 2)]⟩ "x" 5).map Prod.fst).filterMap
            (fun i => (⟨[], [⟨1, "aaa", "h1", 0⟩, ⟨2, "bb", "h2", 0⟩], [], 3⟩ :
                Store).contentItems.find? (fun ci => ci.id == i))) :=
  ⟨by decide, by decide,
    (C5_search_ranked_merge (fun s => [(s.length : Int)])
        ⟨[], [⟨1, "aaa", "h1", 0⟩, ⟨2, "bb", "h2", 0⟩], [], 3⟩
        ⟨[[3], [1]], [(0, 1), (1, 2)]⟩ "x" 5 (by decide)).2 (by decide)⟩

/-! ## Claim C6: title reconciliation asymmetry -/

/-- C6: the two ingestion entry points treat titles asymmetrically.  For a
non-empty url (so that `ingest_text`'s truthy `if source_url:` lookup runs at
all and the url can resolve to an existing `Source`): two `ingest_webpage`
calls with that url, different (non-duplicate) texts and different titles
(the second non-empty) leave exactly one `Source` for the url, whose title is
the second call's title; while `ingest_text` whose `source_url` resolves to
an existing `Source` (for new, non-duplicate content) leaves the stored
sources — in particular the stored title — entirely unchanged. -/
theorem C6_title_reconciliation_asymmetry (digest : String → String)
    (url text₁ text₂ t₁ t₂ : String) (hurl : url ≠ "")
    (hne : digest text₁ ≠ digest text₂) (ht : t₁ ≠ t₂) (ht₂ : t₂ ≠ "") :
    (((ingest_webpage digest
          (ingest_webpage digest Store.empty text₁ url (some t₁)).2
          text₂ url (some t₂)).2).sources.map (fun s => (s.url, s.title)) =
        [(some url, some t₂)]) ∧
    (∀ store text ty title src,
        store.contentItems.find? (fun ci => ci.content_hash == digest text) = none →
        store.sources.find? (fun s => s.url == some url) = some src →
        ((ingest_text digest store text ty title (some url)).2).sources =
          store.sources) := by
  constructor
  · have h₁ : (ingest_webpage digest Store.empty text₁ url (some t₁)).2 =
        ⟨[⟨0, "webpage", some url, some t₁⟩],
         [⟨1, text₁, digest text₁, 0⟩], [], 2⟩ := by
      simp [ingest_webpage, Store.empty, finishIngest]
    rw [h₁]
    have hb : ((digest text₁ : String) == digest text₂) = false :=
      beq_eq_false_iff_ne.mpr hne
    have htitle : (some t₁ : Option String) ≠ some t₂ := by
      intro hcon
      exact ht (Option.some.inj hcon)
    simp [ingest_webpage, List.find?, hb, finishIngest, ht₂, htitle]
  · intro store text ty title src hf hs
    simp [ingest_text, hf, hs, hurl, finishIngest]

/-- C6 witness: the identity digest, url `"u"`, texts `"a"`/`"b"`, titles
`"A"`/`"B"`. -/
theorem C6_witness :
    ("u" ≠ "") ∧ ((id "a" : String) ≠ id "b") ∧ ("A" ≠ "B") ∧ ("B" ≠ "") ∧
    (((ingest_webpage id (ingest_webpage id Store.empty "a" "u" (some "A")).2
        "b" "u" (some "B")).2).sources.map (fun s => (s.url, s.title)) =
      [(some "u", some "B")]) :=
  ⟨by decide, by decide, by decide, by decide,
    (C6_title_reconciliation_asymmetry id "u" "a" "b" "A" "B"
      (by decide) (by decide) (by decide) (by decide)).1⟩

/-! ## Claim C9: listing pagination -/

/-- C9: `list_content_items_with_summary store skip limit` returns exactly the
rows at positions `skip .. skip+limit-1` of the insertion-ordered sequence of
all `ContentItem`s: its length is `min limit (total - skip)` and its `i`-th
element is the store's `(skip+i)`-th element for every `i < limit`. -/
theorem C9_list_insertion_order (store : Store) (skip limit : Nat) :
    (list_content_items_with_summary store skip limit).length =
      min limit (store.contentItems.length - skip) ∧
    ∀ i, i < limit →
      (list_content_items_with_summary store skip limit)[i]? =
        store.contentItems[skip + i]? := by
  constructor
  · simp [list_content_items_with_summary]
  · intro i hi
    simp [list_content_items_with_summary, List.getElem?_take, hi,
      List.getElem?_drop]

/-- C9 witness: a three-row store paged with `skip = 1`, `limit = 1`. -/
theorem C9_witness :
    (0 < 1) ∧
    (list_content_items_with_summary
        ⟨[], [⟨1, "a", "ha", 0⟩, ⟨2, "b", "hb", 0⟩, ⟨3, "c", "hc", 0⟩], [], 4⟩ 1 1)[0]? =
      (⟨[], [⟨1, "a", "ha", 0⟩, ⟨2, "b", "hb", 0⟩, ⟨3, "c", "hc", 0⟩], [], 4⟩ :
        Store).contentItems[1 + 0]? :=
  ⟨by decide,
    (C9_list_insertion_order
        ⟨[], [⟨1, "a", "ha", 0⟩, ⟨2, "b", "hb", 0⟩, ⟨3, "c", "hc", 0⟩], [], 4⟩ 1 1).2
      0 (by decide)⟩

end Tracepaper
